import Mathlib

/- Verification development for the token resolution and market-data
   aggregation engine of the aggregator-service
   (internal/services/external.go).

   Modelling conventions:
   - Go strings are modelled by Lean strings; Go Unicode case mapping and
     whitespace trimming are modelled on the ASCII / Latin-1 range
     (the engine only manipulates hex addresses and ticker symbols).
   - HTTP and RPC calls are modelled by environments carrying the decoded
     response payloads; a "none" payload stands for any transport error,
     non-200 status or JSON parse failure, all of which the Go code
     collapses into the same empty/failed result.
   - Fallible Go calls returning (value, error) are modelled with Option.
   - Go maps used as sets/dictionaries are modelled by association lists
     in a fixed order; Go map iteration order is unspecified, and every
     property proved below is insensitive to that order.  -/

/-- Character test for ASCII upper-case letters (the range the Go
unicode case conversion affects for the data handled by the engine). -/
def isUpperChar (c : Char) : Bool := 65 ≤ c.toNat && c.toNat ≤ 90

/-- Character test for ASCII lower-case letters. -/
def isLowerChar (c : Char) : Bool := 97 ≤ c.toNat && c.toNat ≤ 122

/-- Models Go strings.ToLower (ASCII range). -/
def toLowerStr (s : String) : String := ⟨s.data.map Char.toLower⟩

/-- Models Go strings.ToUpper (ASCII range). -/
def toUpperStr (s : String) : String := ⟨s.data.map Char.toUpper⟩

/-- A string with no ASCII upper-case letter, i.e. a lower-cased string. -/
def noUpperStr (s : String) : Bool := s.data.all (fun c => !isUpperChar c)

/-- A string with no ASCII lower-case letter, i.e. an upper-cased string. -/
def noLowerStr (s : String) : Bool := s.data.all (fun c => !isLowerChar c)

theorem toNat_ofNat_valid (n : Nat) (h : n.isValidChar) : (Char.ofNat n).toNat = n := by
  have hlt : n < 2 ^ 32 := by
    rcases h with h | h
    · omega
    · omega
  simp [Char.ofNat, h, Char.ofNatAux, Char.toNat, UInt32.toNat, BitVec.toNat_ofNat,
    Nat.mod_eq_of_lt hlt]

theorem isUpperChar_toLower (c : Char) : isUpperChar (Char.toLower c) = false := by
  unfold Char.toLower
  by_cases h : c.toNat ≥ 65 ∧ c.toNat ≤ 90
  · have hv : (c.toNat + 32).isValidChar := Or.inl (by omega)
    simp only [h, if_true]
    simp [isUpperChar, toNat_ofNat_valid _ hv]
    omega
  · simp only [h, if_false]
    simp [isUpperChar]
    omega

theorem isLowerChar_toUpper (c : Char) : isLowerChar (Char.toUpper c) = false := by
  unfold Char.toUpper
  by_cases h : c.toNat ≥ 97 ∧ c.toNat ≤ 122
  · have hv : (c.toNat - 32).isValidChar := Or.inl (by omega)
    simp only [h, if_true]
    simp [isLowerChar, toNat_ofNat_valid _ hv]
    omega
  · simp only [h, if_false]
    simp [isLowerChar]
    omega

theorem noUpperStr_toLowerStr (s : String) : noUpperStr (toLowerStr s) = true := by
  simp [noUpperStr, toLowerStr, List.all_eq_true]
  intro c _
  simp [isUpperChar_toLower]

theorem noLowerStr_toUpperStr (s : String) : noLowerStr (toUpperStr s) = true := by
  simp [noLowerStr, toUpperStr, List.all_eq_true]
  intro c _
  simp [isLowerChar_toUpper]

/-- Whitespace recognizer of Go strings.TrimSpace, on the Latin-1 range
(higher space runes are outside the modelled alphabet). -/
def goIsSpace (c : Char) : Bool :=
  c.toNat = 9 || c.toNat = 10 || c.toNat = 11 || c.toNat = 12 || c.toNat = 13 ||
  c.toNat = 32 || c.toNat = 133 || c.toNat = 160

/-- Models Go strings.TrimSpace. -/
def trimSpaceStr (s : String) : String :=
  ⟨((s.data.dropWhile goIsSpace).reverse.dropWhile goIsSpace).reverse⟩

def isHexDigitChar (c : Char) : Bool :=
  (48 ≤ c.toNat && c.toNat ≤ 57) || (97 ≤ c.toNat && c.toNat ≤ 102) ||
  (65 ≤ c.toNat && c.toNat ≤ 70)

def isLetterChar (c : Char) : Bool :=
  (65 ≤ c.toNat && c.toNat ≤ 90) || (97 ≤ c.toNat && c.toNat ≤ 122)

def isAlphanumericChar (c : Char) : Bool :=
  isLetterChar c || (48 ≤ c.toNat && c.toNat ≤ 57)

/-- Models the anchored pattern of ethereumAddressRegex: 0x followed by
exactly 40 hex digits. -/
def matchesEthereumAddress (s : String) : Bool :=
  match s.data with
  | '0' :: 'x' :: rest => rest.length == 40 && rest.all isHexDigitChar
  | _ => false

/-- Models the anchored pattern of symbolRegex: one letter followed by
1 to 10 alphanumeric characters. -/
def matchesSymbolPattern (s : String) : Bool :=
  match s.data with
  | [] => false
  | c :: rest =>
    isLetterChar c && decide (1 ≤ rest.length) && decide (rest.length ≤ 10) &&
      rest.all isAlphanumericChar

/-- Models DetectInputType: trim, then classify by the two anchored
patterns, in that order. -/
def DetectInputType (input : String) : String :=
  let t := trimSpaceStr input
  if matchesEthereumAddress t then "address"
  else if matchesSymbolPattern t then "symbol"
  else "unknown"

/-- C2: after trimming, a string matching the strict 0x+40-hex pattern is
classified "address"; a trimmed string matching the letter-then-1-to-10
alphanumerics pattern that is not a valid address is classified "symbol";
everything else is classified "unknown".  Determinism and freedom from
side effects are intrinsic: DetectInputType is a pure function of its
argument. -/
theorem detectInputType_classification (s : String) :
    (matchesEthereumAddress (trimSpaceStr s) = true → DetectInputType s = "address")
    ∧ (matchesEthereumAddress (trimSpaceStr s) = false →
        matchesSymbolPattern (trimSpaceStr s) = true → DetectInputType s = "symbol")
    ∧ (matchesEthereumAddress (trimSpaceStr s) = false →
        matchesSymbolPattern (trimSpaceStr s) = false → DetectInputType s = "unknown") := by
  refine ⟨fun h1 => ?_, fun h1 h2 => ?_, fun h1 h2 => ?_⟩ <;>
    simp [DetectInputType, h1]
  · simp [h2]
  · simp [h2]

/-- C2 witness: the classifier evaluated on concrete inputs of each class,
through detectInputType_classification. -/
theorem detectInputType_classification_witness :
    DetectInputType (" 0xA0b86991c6218b36c1d19D4a2e9Eb0cE3606eB48 ") = "address"
    ∧ DetectInputType ("WETH") = "symbol"
    ∧ DetectInputType ("ZZZNOTATOKEN123456") = "unknown" :=
  ⟨(detectInputType_classification (" 0xA0b86991c6218b36c1d19D4a2e9Eb0cE3606eB48 ")).1
      (by decide),
   (detectInputType_classification ("WETH")).2.1 (by decide) (by decide),
   (detectInputType_classification ("ZZZNOTATOKEN123456")).2.2 (by decide) (by decide)⟩

/-- Canonical token record (models.Token), with the fields the engine
reads or writes.  The four market-data fields are decimal.Decimal in Go,
zero until parseAndSetMarketData assigns them; they are modelled as
Option so that "field was set" is the some case.  LastUpdated is a
timestamp in Go; the model only records whether it was stamped. -/
structure Token where
  address : String
  symbol : String
  name : String
  chainID : Nat
  decimals : Nat
  source : String
  verified : Bool
  popular : Bool
  logoURI : String := ""
  tags : List String := []
  priceUSD : Option ℚ := none
  volume24h : Option ℚ := none
  marketCap : Option ℚ := none
  change24h : Option ℚ := none
  lastUpdated : Bool := false
deriving DecidableEq, Repr

/-- Numeric value of a list of ASCII digit characters. -/
def digitsToNat (ds : List Char) : Nat :=
  ds.foldl (fun a c => a * 10 + (c.toNat - 48)) 0

def isDigitChar (c : Char) : Bool := 48 ≤ c.toNat && c.toNat ≤ 57

/-- Split a character list at every dot. -/
def splitOnDot : List Char → List (List Char)
  | [] => [[]]
  | '.' :: rest => [] :: splitOnDot rest
  | c :: rest =>
    match splitOnDot rest with
    | [] => [[c]]
    | p :: ps => (c :: p) :: ps

/-- Models decimal.NewFromString on sign + digits (+ optional fractional
part) inputs; scientific notation and other exotic accepted forms are not
modelled (no claim depends on them).  Returns none exactly when the Go
call returns a non-nil error on the modelled alphabet. -/
def parseDecimal (s : String) : Option ℚ :=
  let signAndDigits : Bool × List Char :=
    match s.data with
    | '-' :: rest => (true, rest)
    | '+' :: rest => (false, rest)
    | cs => (false, cs)
  let neg := signAndDigits.1
  let cs := signAndDigits.2
  let build : Nat → Nat → Option ℚ := fun intVal fracLen =>
    let sval : Int := if neg then -(intVal : Int) else (intVal : Int)
    some (mkRat sval (10 ^ fracLen))
  match splitOnDot cs with
  | [ip] =>
    if ip ≠ [] && ip.all isDigitChar then build (digitsToNat ip) 0 else none
  | [ip, fp] =>
    if (ip ++ fp) ≠ [] && ip.all isDigitChar && fp.all isDigitChar then
      build (digitsToNat (ip ++ fp)) fp.length
    else none
  | _ => none

/-- Models getSourcePriority: the fixed source priority table. -/
def getSourcePriority (source : String) : Nat :=
  if source = "geckoterminal" then 4
  else if source = "onchain" then 3
  else if source = "dexscreener" then 2
  else if source = "binance" then 1
  else 0

/-- Deduplication key of a token: chain id paired with the lower-cased
address, modelling the "chainID:lower(address)" map key. -/
def tokenKey (t : Token) : Nat × String := (t.chainID, toLowerStr t.address)

/-- One iteration of the deduplication loop: the Go "seen" map is an
association list keyed by tokenKey (insertion order fixes the otherwise
unspecified Go map order; the proved properties do not depend on it). -/
def dedupStep (seen : List Token) (t : Token) : List Token :=
  match seen.find? (fun e => decide (tokenKey e = tokenKey t)) with
  | some existing =>
    if getSourcePriority t.source > getSourcePriority existing.source then
      seen.map (fun e => if tokenKey e = tokenKey t then t else e)
    else seen
  | none => seen ++ [t]

/-- Models deduplicateTokens (the final sort in the Go source is an
unimplemented comment, so the output is the map contents). -/
def deduplicateTokens (tokens : List Token) : List Token :=
  tokens.foldl dedupStep []

/-- Invariant carried through the deduplication fold: after consuming the
input prefix pre, the map contents seen have pairwise distinct keys, every
entry comes from pre, every entry has maximal priority among the prefix
records sharing its key, and every prefix key is represented. -/
def DedupInv (pre seen : List Token) : Prop :=
  (seen.map tokenKey).Nodup
  ∧ (∀ e ∈ seen, e ∈ pre)
  ∧ (∀ e ∈ seen, ∀ t ∈ pre, tokenKey t = tokenKey e →
      getSourcePriority t.source ≤ getSourcePriority e.source)
  ∧ (∀ t ∈ pre, tokenKey t ∈ seen.map tokenKey)

theorem dedupStep_inv {pre seen : List Token} (t : Token) (h : DedupInv pre seen) :
    DedupInv (pre ++ [t]) (dedupStep seen t) := by
  obtain ⟨h1, h2, h3, h4⟩ := h
  have huniq : ∀ e ∈ seen, ∀ e' ∈ seen, tokenKey e = tokenKey e' → e = e' := by
    intro e he e' he' hk
    exact List.inj_on_of_nodup_map h1 he he' hk
  unfold dedupStep
  cases hfind : seen.find? (fun e => decide (tokenKey e = tokenKey t)) with
  | none =>
    have hnone : ∀ x ∈ seen, ¬ tokenKey x = tokenKey t := by
      intro x hx
      have := List.find?_eq_none.mp hfind x hx
      simpa using this
    show DedupInv (pre ++ [t]) (seen ++ [t])
    refine ⟨?_, ?_, ?_, ?_⟩
    · rw [List.map_append]
      rw [List.nodup_append]
      refine ⟨h1, by simp, ?_⟩
      intro k hk
      simp only [List.map_cons, List.map_nil, List.mem_singleton]
      intro hk2
      obtain ⟨x, hx, hxk⟩ := List.mem_map.mp hk
      exact hnone x hx (by rw [hxk, hk2])
    · intro e he
      rcases List.mem_append.mp he with he | he
      · exact List.mem_append.mpr (Or.inl (h2 e he))
      · simp at he
        simp [he]
    · intro e he u hu hk
      rcases List.mem_append.mp he with he1 | he1
      · rcases List.mem_append.mp hu with hu1 | hu1
        · exact h3 e he1 u hu1 hk
        · have hut : u = t := by simpa using hu1
          rw [hut] at hk
          exact absurd hk.symm (hnone e he1)
      · have het : e = t := by simpa using he1
        rcases List.mem_append.mp hu with hu1 | hu1
        · exfalso
          have := h4 u hu1
          obtain ⟨x, hx, hxk⟩ := List.mem_map.mp this
          rw [het] at hk
          exact hnone x hx (by rw [hxk, hk])
        · have hut : u = t := by simpa using hu1
          rw [het, hut]
    · intro u hu
      rcases List.mem_append.mp hu with hu | hu
      · have := h4 u hu
        rw [List.map_append]
        exact List.mem_append.mpr (Or.inl this)
      · simp at hu
        subst hu
        rw [List.map_append]
        simp
  | some ex =>
    have hex_mem : ex ∈ seen := List.mem_of_find?_eq_some hfind
    have hex_key : tokenKey ex = tokenKey t := by
      have := List.find?_some hfind
      simpa using this
    have hkey_uniq : ∀ e ∈ seen, tokenKey e = tokenKey t → e = ex := by
      intro e he hk
      exact huniq e he ex hex_mem (by rw [hk, hex_key])
    by_cases hpri : getSourcePriority t.source > getSourcePriority ex.source
    · simp only [hpri, if_true]
      have hkeys : (seen.map (fun e => if tokenKey e = tokenKey t then t else e)).map tokenKey
          = seen.map tokenKey := by
        rw [List.map_map]
        apply List.map_congr_left
        intro e _
        by_cases h : tokenKey e = tokenKey t
        · simp only [Function.comp_apply, if_pos h]
          rw [h]
        · simp only [Function.comp_apply, if_neg h]
      refine ⟨?_, ?_, ?_, ?_⟩
      · rw [hkeys]
        exact h1
      · intro e' he'
        obtain ⟨e, he, hrepl⟩ := List.mem_map.mp he'
        by_cases h : tokenKey e = tokenKey t
        · rw [if_pos h] at hrepl
          subst hrepl
          simp
        · rw [if_neg h] at hrepl
          subst hrepl
          exact List.mem_append.mpr (Or.inl (h2 e he))
      · intro e' he' u hu hk
        obtain ⟨e, he, hrepl⟩ := List.mem_map.mp he'
        by_cases h : tokenKey e = tokenKey t
        · rw [if_pos h] at hrepl
          subst hrepl
          have he_ex : e = ex := hkey_uniq e he h
          rcases List.mem_append.mp hu with hu | hu
          · have : getSourcePriority u.source ≤ getSourcePriority ex.source := by
              apply h3 ex hex_mem u hu
              rw [hk, hex_key]
            omega
          · simp at hu
            subst hu
            exact le_refl _
        · rw [if_neg h] at hrepl
          subst hrepl
          rcases List.mem_append.mp hu with hu | hu
          · exact h3 e he u hu hk
          · simp at hu
            subst hu
            exact absurd hk.symm h
      · intro u hu
        rw [hkeys]
        rcases List.mem_append.mp hu with hu | hu
        · exact h4 u hu
        · simp at hu
          subst hu
          rw [← hex_key]
          exact List.mem_map_of_mem tokenKey hex_mem
    · simp only [hpri, if_false]
      refine ⟨h1, fun e he => List.mem_append.mpr (Or.inl (h2 e he)), ?_, ?_⟩
      · intro e he u hu hk
        rcases List.mem_append.mp hu with hu | hu
        · exact h3 e he u hu hk
        · simp at hu
          subst hu
          have he_ex : e = ex := hkey_uniq e he hk.symm
          subst he_ex
          omega
      · intro u hu
        rcases List.mem_append.mp hu with hu | hu
        · exact h4 u hu
        · simp at hu
          subst hu
          rw [← hex_key]
          exact List.mem_map_of_mem tokenKey hex_mem

theorem dedup_foldl_inv (rest : List Token) :
    ∀ pre seen, DedupInv pre seen → DedupInv (pre ++ rest) (rest.foldl dedupStep seen) := by
  induction rest with
  | nil =>
    intro pre seen h
    simpa using h
  | cons t rest ih =>
    intro pre seen h
    have := ih (pre ++ [t]) (dedupStep seen t) (dedupStep_inv t h)
    simpa using this

theorem deduplicateTokens_inv (tokens : List Token) :
    DedupInv tokens (deduplicateTokens tokens) := by
  have := dedup_foldl_inv tokens [] [] ⟨by simp, by simp, by simp, by simp⟩
  simpa [deduplicateTokens] using this

theorem countP_key_eq_one (out : List Token) (k : Nat × String)
    (hnd : (out.map tokenKey).Nodup) (hk : k ∈ out.map tokenKey) :
    out.countP (fun e => decide (tokenKey e = k)) = 1 := by
  induction out with
  | nil => simp at hk
  | cons t rest ih =>
    simp only [List.map_cons, List.nodup_cons] at hnd
    rw [List.countP_cons]
    by_cases ht : tokenKey t = k
    · have hrest : rest.countP (fun e => decide (tokenKey e = k)) = 0 := by
        apply List.countP_eq_zero.mpr
        intro e he
        simp only [decide_eq_true_eq]
        intro hek
        exact hnd.1 (by rw [ht, ← hek]; exact List.mem_map_of_mem tokenKey he)
      simp [hrest, ht]
    · have hk2 : k ∈ rest.map tokenKey := by
        rcases List.mem_cons.mp hk with h | h
        · exact absurd h.symm ht
        · exact h
      simp [ih hnd.2 hk2, ht]

/-- C1: deduplicateTokens keeps each (chainId, lower-cased address) key of
the input exactly once; the surviving record for a key is an input record
whose source priority is maximal among all input records sharing that key;
and the priority table is the fixed total order
geckoterminal > onchain > dexscreener > binance. -/
theorem deduplicateTokens_spec (tokens : List Token) :
    (∀ k, k ∈ tokens.map tokenKey →
      (deduplicateTokens tokens).countP (fun e => decide (tokenKey e = k)) = 1)
    ∧ (∀ e ∈ deduplicateTokens tokens, e ∈ tokens ∧
        ∀ t ∈ tokens, tokenKey t = tokenKey e →
          getSourcePriority t.source ≤ getSourcePriority e.source)
    ∧ getSourcePriority "binance" < getSourcePriority "dexscreener"
    ∧ getSourcePriority "dexscreener" < getSourcePriority "onchain"
    ∧ getSourcePriority "onchain" < getSourcePriority "geckoterminal" := by
  obtain ⟨h1, h2, h3, h4⟩ := deduplicateTokens_inv tokens
  refine ⟨?_, ?_, by decide, by decide, by decide⟩
  · intro k hk
    obtain ⟨x, hx, hxk⟩ := List.mem_map.mp hk
    have : k ∈ (deduplicateTokens tokens).map tokenKey := by
      rw [← hxk]
      exact h4 x hx
    exact countP_key_eq_one _ k h1 this
  · intro e he
    exact ⟨h2 e he, fun t ht hk => h3 e he t ht hk⟩

/-- Concrete colliding records used by the C1 witness. -/
def tokBinance : Token :=
  { address := "0xabc", symbol := "CAKE", name := "CAKE", chainID := 56,
    decimals := 18, source := "binance", verified := true, popular := true }

def tokGecko : Token :=
  { address := "0xABC", symbol := "CAKE", name := "PancakeSwap", chainID := 56,
    decimals := 18, source := "geckoterminal", verified := true, popular := false }

/-- C1 witness: deduplicateTokens_spec applied to a concrete two-record
collision. -/
theorem deduplicateTokens_spec_witness :
    (deduplicateTokens [tokBinance, tokGecko]).countP
      (fun e => decide (tokenKey e = tokenKey tokBinance)) = 1
    ∧ ∀ t ∈ [tokBinance, tokGecko], tokenKey t = tokenKey tokGecko →
        getSourcePriority t.source ≤ getSourcePriority tokGecko.source :=
  ⟨(deduplicateTokens_spec [tokBinance, tokGecko]).1 (tokenKey tokBinance) (by decide),
   ((deduplicateTokens_spec [tokBinance, tokGecko]).2.1 tokGecko (by decide)).2⟩

/-- Raw (symbol, name, decimals) tuple decoded from the three contract
calls (TokenInfo in the Go source). -/
structure TokenInfo where
  symbol : String
  name : String
  decimals : Nat
deriving DecidableEq, Repr

/-- Per-call RPC environment for one (chain, address) pair: dial outcome
and the raw byte responses of the three selector calls.  A none response
models a failed eth_call. -/
structure ContractCallEnv where
  dialOK : Bool
  nameResult : Option (List Nat)
  symbolResult : Option (List Nat)
  decimalsResult : Option (List Nat)
deriving DecidableEq

/-- Big-endian integer value of a byte list (big.Int SetBytes). -/
def beBytesToNat (bs : List Nat) : Nat :=
  bs.foldl (fun acc b => acc * 256 + b % 256) 0

/-- Models go-ethereum ABI unpacking of a single dynamic string: a 32-byte
big-endian offset, then a 32-byte length at that offset, then the string
bytes. -/
def abiDecodeString (bs : List Nat) : Option String :=
  let off := beBytesToNat (bs.take 32)
  if bs.length < off + 32 then none
  else
    let len := beBytesToNat ((bs.drop off).take 32)
    if bs.length < off + 32 + len then none
    else some ⟨(((bs.drop (off + 32)).take len).map (fun b => Char.ofNat (b % 256)))⟩

/-- Models callStringMethod: a failed call, a response shorter than 64
bytes, or an ABI decode failure all yield no string. -/
def callStringMethod (result : Option (List Nat)) : Option String :=
  match result with
  | none => none
  | some bs =>
    if bs.length < 64 then none
    else abiDecodeString bs

/-- Models callDecimalsMethod: a failed call, a response shorter than 32
bytes, or a decoded value above 77 all yield no decimals.  The Go code
reads the whole response with big.Int and truncates with Uint64, modelled
by the mod 2^64. -/
def callDecimalsMethod (result : Option (List Nat)) : Option Nat :=
  match result with
  | none => none
  | some bs =>
    if bs.length < 32 then none
    else
      let decimals := beBytesToNat bs % 2 ^ 64
      if decimals > 77 then none else some decimals

/-- Models getTokenInfoFromContract: symbol, then name, then decimals, in
the order of the Go source; a symbol or name failure aborts the lookup,
while a decimals failure falls back to 18. -/
def getTokenInfoFromContract (chainActive : Bool) (c : ContractCallEnv) :
    Option TokenInfo :=
  if !chainActive then none
  else if !c.dialOK then none
  else
    match callStringMethod c.symbolResult with
    | none => none
    | some sym =>
      match callStringMethod c.nameResult with
      | none => none
      | some nm =>
        match callDecimalsMethod c.decimalsResult with
        | some d => some ⟨sym, nm, d⟩
        | none => some ⟨sym, nm, 18⟩

/-- Models verifyTokenOnchain: chain/RPC configuration guard, contract
lookup, rejection of empty symbol or name, then construction of the token
with lower-cased address and upper-cased symbol. -/
def verifyTokenOnchain (rpcConfigured chainActive : Bool) (c : ContractCallEnv)
    (address : String) (chainID : Nat) : Option Token :=
  if !rpcConfigured then none
  else
    match getTokenInfoFromContract chainActive c with
    | none => none
    | some info =>
      if info.symbol = "" || info.name = "" then none
      else
        some
          { address := toLowerStr address, symbol := toUpperStr info.symbol,
            name := info.name, chainID := chainID, decimals := info.decimals,
            source := "onchain", verified := true, popular := false }

/-- C3: with the chain configured and the connection up, if the symbol and
name calls decode, a decimals call that fails (no response, short
response, or decoded value above 77) still yields a successful lookup
whose decimals is 18; and a failing symbol or name call makes the whole
lookup fail, so no token is produced for that chain. -/
theorem getTokenInfoFromContract_decimals_default (c : ContractCallEnv) :
    (∀ sym nm, c.dialOK = true →
      callStringMethod c.symbolResult = some sym →
      callStringMethod c.nameResult = some nm →
      callDecimalsMethod c.decimalsResult = none →
      getTokenInfoFromContract true c = some ⟨sym, nm, 18⟩)
    ∧ ((c.decimalsResult = none
        ∨ ∃ bs, c.decimalsResult = some bs ∧
            (bs.length < 32 ∨ 77 < beBytesToNat bs % 2 ^ 64)) →
        callDecimalsMethod c.decimalsResult = none)
    ∧ (callStringMethod c.symbolResult = none ∨ callStringMethod c.nameResult = none →
        getTokenInfoFromContract true c = none
        ∧ ∀ address chainID, verifyTokenOnchain true true c address chainID = none)
    ∧ (∀ bs, bs.length < 64 → callStringMethod (some bs) = none)
    ∧ (∀ bs, abiDecodeString bs = none → callStringMethod (some bs) = none) := by
  refine ⟨?_, ?_, ?_, ?_, ?_⟩
  · intro sym nm hdial hsym hnm hdec
    simp [getTokenInfoFromContract, hdial, hsym, hnm, hdec]
  · intro h
    rcases h with h | ⟨bs, hbs, h⟩
    · simp [callDecimalsMethod, h]
    · rcases h with h | h
      · simp [callDecimalsMethod, hbs, h]
      · by_cases hlen : bs.length < 32
        · simp [callDecimalsMethod, hbs, hlen]
        · simp only [callDecimalsMethod, hbs]
          rw [if_neg hlen, if_pos]
          simpa using h
  · intro h
    have hinfo : getTokenInfoFromContract true c = none := by
      cases hd : c.dialOK
      · simp [getTokenInfoFromContract, hd]
      · rcases h with h | h
        · simp [getTokenInfoFromContract, hd, h]
        · cases hs : callStringMethod c.symbolResult
          · simp [getTokenInfoFromContract, hd, hs]
          · simp [getTokenInfoFromContract, hd, hs, h]
    refine ⟨hinfo, fun address chainID => ?_⟩
    simp [verifyTokenOnchain, hinfo]
  · intro bs hlen
    simp [callStringMethod, hlen]
  · intro bs hdec
    simp [callStringMethod, hdec]

/-- Concrete RPC responses for the C3 witness: valid ABI strings for
symbol and name, and a decimals word decoding to 100 (above the 77
bound). -/
def cEnvDecimalsFail : ContractCallEnv :=
  { dialOK := true,
    nameResult := some (List.replicate 31 0 ++ [32] ++ List.replicate 31 0 ++
      [8, 85, 83, 68, 32, 67, 111, 105, 110]),
    symbolResult := some (List.replicate 31 0 ++ [32] ++ List.replicate 31 0 ++
      [4, 85, 83, 68, 67]),
    decimalsResult := some (List.replicate 31 0 ++ [100]) }

/-- C3 witness: the decimals-default theorem applied to concrete call
responses whose decimals word decodes to 100. -/
theorem getTokenInfoFromContract_decimals_default_witness :
    getTokenInfoFromContract true cEnvDecimalsFail = some ⟨"USDC", "USD Coin", 18⟩ :=
  (getTokenInfoFromContract_decimals_default cEnvDecimalsFail).1 "USDC" "USD Coin"
    (by decide) (by decide) (by decide)
    ((getTokenInfoFromContract_decimals_default cEnvDecimalsFail).2.1
      (Or.inr ⟨List.replicate 31 0 ++ [100], by decide, Or.inr (by decide)⟩))

/-- One pair of the DexScreener tokens/<address> response, restricted to
the fields the enrichment code reads (the remaining JSON fields are only
logged). -/
structure DexPair where
  chainId : String
  baseTokenAddress : String
  baseTokenSymbol : String
  quoteTokenSymbol : String
  priceUsd : String
  volumeH24 : String
  liquidityUsd : String
  marketCap : String
  priceChangeH24 : String
deriving DecidableEq, Repr

/-- Models strings.EqualFold on the modelled ASCII alphabet. -/
def eqFold (a b : String) : Bool := toLowerStr a == toLowerStr b

/-- Direct transcription of the best-pair selection loop of
enhanceFromDexScreener, with the running best pair and the running maximal
parsed liquidity as accumulator. -/
def selectLoop (addr : String) (best : Option DexPair) (maxLiq : ℚ) :
    List DexPair → Option DexPair
  | [] => best
  | p :: ps =>
    if eqFold p.baseTokenAddress addr then
      if p.liquidityUsd ≠ "" then
        match parseDecimal p.liquidityUsd with
        | some liq =>
          if best.isNone || liq > maxLiq then selectLoop addr (some p) liq ps
          else selectLoop addr best maxLiq ps
        | none => selectLoop addr best maxLiq ps
      else
        match best with
        | none => selectLoop addr (some p) maxLiq ps
        | some _ => selectLoop addr best maxLiq ps
    else selectLoop addr best maxLiq ps

/-- Best matching pair of a DexScreener response for a token address. -/
def selectBestPair (addr : String) (pairs : List DexPair) : Option DexPair :=
  selectLoop addr none 0 pairs

/-- Price-setting stage of parseAndSetMarketData: applied only when
present, not "0"/"null", and a valid positive decimal. -/
def applyPrice (token : Token) (priceUsd : String) : Token :=
  if priceUsd ≠ "" && priceUsd ≠ "0" && priceUsd ≠ "null" then
    match parseDecimal priceUsd with
    | some price => if 0 < price then { token with priceUSD := some price } else token
    | none => token
  else token

/-- Volume-setting stage of parseAndSetMarketData (same validation as the
price). -/
def applyVolume (token : Token) (volume24h : String) : Token :=
  if volume24h ≠ "" && volume24h ≠ "0" && volume24h ≠ "null" then
    match parseDecimal volume24h with
    | some volume => if 0 < volume then { token with volume24h := some volume } else token
    | none => token
  else token

/-- Market-cap-setting stage of parseAndSetMarketData (same validation as
the price). -/
def applyMarketCap (token : Token) (marketCap : String) : Token :=
  if marketCap ≠ "" && marketCap ≠ "0" && marketCap ≠ "null" then
    match parseDecimal marketCap with
    | some mcap => if 0 < mcap then { token with marketCap := some mcap } else token
    | none => token
  else token

/-- Change-setting stage of parseAndSetMarketData: any valid decimal, sign
not restricted. -/
def applyChange (token : Token) (priceChange24h : String) : Token :=
  if priceChange24h ≠ "" && priceChange24h ≠ "null" then
    match parseDecimal priceChange24h with
    | some change => { token with change24h := some change }
    | none => token
  else token

/-- Models parseAndSetMarketData: the four guarded assignments of the Go
source, in order, then the unconditional last-updated stamp. -/
def parseAndSetMarketData (token : Token)
    (priceUsd volume24h marketCap priceChange24h : String) : Token :=
  { applyChange (applyMarketCap (applyVolume (applyPrice token priceUsd) volume24h)
      marketCap) priceChange24h with lastUpdated := true }

/-- Models enhanceFromDexScreener: on a usable response, select the best
matching pair; on success apply its market data and overwrite the source
tag.  The Bool is the Go return value. -/
def enhanceFromDexScreener (resp : Option (List DexPair)) (token : Token) :
    Bool × Token :=
  match resp with
  | none => (false, token)
  | some pairs =>
    if pairs.isEmpty then (false, token)
    else
      match selectBestPair token.address pairs with
      | none => (false, token)
      | some best =>
        let t := parseAndSetMarketData token best.priceUsd best.volumeH24
          best.marketCap best.priceChangeH24
        (true, { t with source := "dexscreener_enhanced" })

/-- Attribute block of the GeckoTerminal single-token response, restricted
to the fields the enrichment code reads. -/
structure GeckoTokenAttrs where
  name : String
  symbol : String
  address : String
  imageUrl : String
  priceUsd : String
  fdvUsd : String
  marketCapUsd : String
  volumeUsdH24 : String
deriving DecidableEq, Repr

/-- Models getNetworkSlugForGeckoTerminal (fixed lookup table; the empty
string is the missing-key zero value of the Go map). -/
def getNetworkSlugForGeckoTerminal (chainID : Nat) : String :=
  if chainID = 1 then "eth"
  else if chainID = 56 then "bsc"
  else if chainID = 8453 then "base"
  else if chainID = 137 then "polygon_pos"
  else if chainID = 42161 then "arbitrum"
  else if chainID = 10 then "optimism"
  else if chainID = 84532 then "base_sepolia"
  else if chainID = 97 then "bsc_testnet"
  else ""

/-- Models enhanceFromGeckoTerminal: network-slug guard, response guard,
empty-name guard, market-cap fallback to FDV, market data application,
logo backfill and source overwrite. -/
def enhanceFromGeckoTerminal (resp : Option GeckoTokenAttrs) (token : Token) :
    Bool × Token :=
  if getNetworkSlugForGeckoTerminal token.chainID = "" then (false, token)
  else
    match resp with
    | none => (false, token)
    | some attrs =>
      if attrs.name = "" then (false, token)
      else
        let marketCapUsd :=
          if attrs.marketCapUsd = "" || attrs.marketCapUsd = "null" then attrs.fdvUsd
          else attrs.marketCapUsd
        let t := parseAndSetMarketData token attrs.priceUsd attrs.volumeUsdH24
          marketCapUsd "0"
        let t :=
          if attrs.imageUrl ≠ "" && t.logoURI = "" then { t with logoURI := attrs.imageUrl }
          else t
        (true, { t with source := "geckoterminal_enhanced" })

/-- Market-data environment of one enrichment run: the two provider
responses for the token's address. -/
structure EnhanceEnv where
  dexResp : Option (List DexPair)
  geckoResp : Option GeckoTokenAttrs
deriving DecidableEq

/-- Models enhanceTokenWithMarketData: DexScreener first, GeckoTerminal
only on DexScreener failure, and the onchain_only tag when both fail. -/
def enhanceTokenWithMarketData (env : EnhanceEnv) (token : Token) : Token :=
  let dex := enhanceFromDexScreener env.dexResp token
  if dex.1 then dex.2
  else
    let gecko := enhanceFromGeckoTerminal env.geckoResp token
    if gecko.1 then gecko.2
    else { token with source := "onchain_only" }

/-- Parsed USD liquidity of a pair (0 when the field does not parse). -/
def liqOf (p : DexPair) : ℚ := (parseDecimal p.liquidityUsd).getD 0

/-- Pairs of a response whose base token matches the given address. -/
def matchingPairs (addr : String) (pairs : List DexPair) : List DexPair :=
  pairs.filter (fun p => eqFold p.baseTokenAddress addr)

theorem selectLoop_some_ne_none (addr : String) :
    ∀ (ps : List DexPair) (b : DexPair) (l : ℚ), selectLoop addr (some b) l ps ≠ none := by
  intro ps
  induction ps with
  | nil => intro b l h; simp [selectLoop] at h
  | cons p rest ih =>
    intro b l
    unfold selectLoop
    by_cases hm : eqFold p.baseTokenAddress addr
    · simp only [hm, if_true]
      by_cases hne : p.liquidityUsd ≠ ""
      · rw [if_pos hne]
        cases hp : parseDecimal p.liquidityUsd with
        | none => exact ih b l
        | some liq =>
          by_cases hcmp : (some b).isNone || liq > l
          · simp only [hcmp, if_true]
            exact ih p liq
          · simp only [hcmp, if_false]
            exact ih b l
      · rw [if_neg hne]
        exact ih b l
    · simp only [hm, if_false]
      exact ih b l

theorem selectLoop_none_iff (addr : String) :
    ∀ ps : List DexPair,
      (selectLoop addr none 0 ps = none ↔
        ∀ p ∈ ps, eqFold p.baseTokenAddress addr = true →
          p.liquidityUsd ≠ "" ∧ parseDecimal p.liquidityUsd = none) := by
  intro ps
  induction ps with
  | nil => simp [selectLoop]
  | cons p rest ih =>
    unfold selectLoop
    by_cases hm : eqFold p.baseTokenAddress addr
    · simp only [hm, if_true]
      by_cases hne : p.liquidityUsd ≠ ""
      · rw [if_pos hne]
        cases hp : parseDecimal p.liquidityUsd with
        | none =>
          constructor
          · intro h
            intro q hq hqm
            rcases List.mem_cons.mp hq with hq | hq
            · subst hq
              exact ⟨hne, hp⟩
            · exact (ih.mp h) q hq hqm
          · intro h
            apply ih.mpr
            intro q hq hqm
            exact h q (List.mem_cons_of_mem p hq) hqm
        | some liq =>
          simp only [Option.isNone_none, Bool.true_or, if_true]
          constructor
          · intro h
            exact absurd h (selectLoop_some_ne_none addr rest p liq)
          · intro h
            have := (h p (List.mem_cons_self p rest) hm).2
            rw [hp] at this
            exact absurd this (by simp)
      · rw [if_neg hne]
        constructor
        · intro h
          exact absurd h (selectLoop_some_ne_none addr rest p 0)
        · intro h
          have := (h p (List.mem_cons_self p rest) hm).1
          exact absurd this (by simpa using hne)
    · simp only [hm, if_false]
      constructor
      · intro h q hq hqm
        rcases List.mem_cons.mp hq with hq | hq
        · subst hq
          exact absurd hqm (by simpa using hm)
        · exact (ih.mp h) q hq hqm
      · intro h
        apply ih.mpr
        intro q hq hqm
        exact h q (List.mem_cons_of_mem p hq) hqm

theorem all_le_of_split (s : DexPair) (pre post : List DexPair)
    (hpre : ∀ q ∈ pre, liqOf q < liqOf s) (hpost : ∀ q ∈ post, liqOf q ≤ liqOf s) :
    ∀ q ∈ pre ++ s :: post, liqOf q ≤ liqOf s := by
  intro q hq
  rcases List.mem_append.mp hq with hq | hq
  · exact le_of_lt (hpre q hq)
  · rcases List.mem_cons.mp hq with hq | hq
    · rw [hq]
    · exact hpost q hq

theorem selectLoop_split (addr : String) :
    ∀ (ps : List DexPair) (b : DexPair),
      (∀ p ∈ ps, eqFold p.baseTokenAddress addr = true →
        p.liquidityUsd ≠ "" ∧ (parseDecimal p.liquidityUsd).isSome = true) →
      ∀ s, selectLoop addr (some b) (liqOf b) ps = some s →
        ∃ pre post, b :: matchingPairs addr ps = pre ++ s :: post
          ∧ (∀ q ∈ pre, liqOf q < liqOf s)
          ∧ (∀ q ∈ post, liqOf q ≤ liqOf s) := by
  intro ps
  induction ps with
  | nil =>
    intro b hall s hs
    simp only [selectLoop, Option.some_inj] at hs
    subst hs
    exact ⟨[], [], by simp [matchingPairs], by simp, by simp⟩
  | cons p rest ih =>
    intro b hall s hs
    have hall_rest : ∀ q ∈ rest, eqFold q.baseTokenAddress addr = true →
        q.liquidityUsd ≠ "" ∧ (parseDecimal q.liquidityUsd).isSome = true :=
      fun q hq => hall q (List.mem_cons_of_mem p hq)
    by_cases hm : eqFold p.baseTokenAddress addr
    · have hmp : matchingPairs addr (p :: rest) = p :: matchingPairs addr rest := by
        simp [matchingPairs, hm]
      obtain ⟨hne, hps⟩ := hall p (List.mem_cons_self p rest) hm
      obtain ⟨liq, hp⟩ := Option.isSome_iff_exists.mp hps
      have hliq : liqOf p = liq := by simp [liqOf, hp]
      unfold selectLoop at hs
      simp only [hm, if_true] at hs
      rw [if_pos hne] at hs
      rw [hp] at hs
      simp only [Option.isNone_some, Bool.false_or] at hs
      by_cases hgt : liq > liqOf b
      · rw [if_pos (by simpa using hgt)] at hs
        rw [← hliq] at hs
        obtain ⟨pre, post, heq, hpre, hpost⟩ := ih p hall_rest s hs
        have hple : liqOf p ≤ liqOf s := by
          apply all_le_of_split s pre post hpre hpost
          rw [← heq]
          exact List.mem_cons_self p _
        refine ⟨b :: pre, post, ?_, ?_, hpost⟩
        · rw [hmp, heq]
          simp
        · intro q hq
          rcases List.mem_cons.mp hq with hq | hq
          · subst hq
            calc liqOf q < liq := hgt
              _ = liqOf p := hliq.symm
              _ ≤ liqOf s := hple
          · exact hpre q hq
      · rw [if_neg (by simpa using hgt)] at hs
        obtain ⟨pre, post, heq, hpre, hpost⟩ := ih b hall_rest s hs
        cases pre with
        | nil =>
          simp only [List.nil_append] at heq
          have hbs : b = s := by
            have := heq
            injection this with h1 h2
          obtain ⟨h1, h2⟩ : b = s ∧ matchingPairs addr rest = post := by
            have := heq
            exact ⟨by injection this, by injection this⟩
          refine ⟨[], p :: post, ?_, by simp, ?_⟩
          · rw [hmp, h2, ← h1]
            simp
          · intro q hq
            rcases List.mem_cons.mp hq with hq | hq
            · subst hq
              rw [hliq, ← h1]
              exact le_of_not_lt hgt
            · exact hpost q hq
        | cons b0 pre2 =>
          obtain ⟨h1, h2⟩ : b = b0 ∧ matchingPairs addr rest = pre2 ++ s :: post := by
            rw [List.cons_append] at heq
            exact ⟨by injection heq, by injection heq⟩
          have hblt : liqOf b < liqOf s := by
            rw [h1]
            exact hpre b0 (List.mem_cons_self b0 pre2)
          refine ⟨b :: p :: pre2, post, ?_, ?_, hpost⟩
          · rw [hmp, h2]
            simp
          · intro q hq
            rcases List.mem_cons.mp hq with hq | hq
            · subst hq
              exact hblt
            · rcases List.mem_cons.mp hq with hq | hq
              · subst hq
                calc liqOf q = liq := hliq
                  _ ≤ liqOf b := le_of_not_lt hgt
                  _ < liqOf s := hblt
              · exact hpre q (List.mem_cons_of_mem b0 hq)
    · have hmp : matchingPairs addr (p :: rest) = matchingPairs addr rest := by
        simp [matchingPairs, hm]
      unfold selectLoop at hs
      simp only [hm, if_false] at hs
      obtain ⟨pre, post, heq, hpre, hpost⟩ := ih b hall_rest s hs
      exact ⟨pre, post, by rw [hmp, heq], hpre, hpost⟩

theorem selectBestPair_split (addr : String) :
    ∀ pairs : List DexPair,
      (∀ p ∈ pairs, eqFold p.baseTokenAddress addr = true →
        p.liquidityUsd ≠ "" ∧ (parseDecimal p.liquidityUsd).isSome = true) →
      ∀ s, selectBestPair addr pairs = some s →
        ∃ pre post, matchingPairs addr pairs = pre ++ s :: post
          ∧ (∀ q ∈ pre, liqOf q < liqOf s)
          ∧ (∀ q ∈ post, liqOf q ≤ liqOf s) := by
  intro pairs
  induction pairs with
  | nil =>
    intro _ s hs
    simp [selectBestPair, selectLoop] at hs
  | cons p rest ih =>
    intro hall s hs
    have hall_rest : ∀ q ∈ rest, eqFold q.baseTokenAddress addr = true →
        q.liquidityUsd ≠ "" ∧ (parseDecimal q.liquidityUsd).isSome = true :=
      fun q hq => hall q (List.mem_cons_of_mem p hq)
    unfold selectBestPair selectLoop at hs
    by_cases hm : eqFold p.baseTokenAddress addr
    · have hmp : matchingPairs addr (p :: rest) = p :: matchingPairs addr rest := by
        simp [matchingPairs, hm]
      obtain ⟨hne, hps⟩ := hall p (List.mem_cons_self p rest) hm
      obtain ⟨liq, hp⟩ := Option.isSome_iff_exists.mp hps
      have hliq : liqOf p = liq := by simp [liqOf, hp]
      simp only [hm, if_true] at hs
      rw [if_pos hne] at hs
      rw [hp] at hs
      simp only [Option.isNone_none, Bool.true_or, if_true] at hs
      rw [← hliq] at hs
      obtain ⟨pre, post, heq, hpre, hpost⟩ := selectLoop_split addr rest p hall_rest s hs
      rw [hmp]
      exact ⟨pre, post, heq, hpre, hpost⟩
    · have hmp : matchingPairs addr (p :: rest) = matchingPairs addr rest := by
        simp [matchingPairs, hm]
      simp only [hm, if_false] at hs
      rw [hmp]
      exact ih hall_rest s hs

/-- Validation predicate of the positive-decimal fields (price, volume,
market cap) of parseAndSetMarketData. -/
def acceptsPositive (s : String) : Bool :=
  s ≠ "" && s ≠ "0" && s ≠ "null" &&
    (match parseDecimal s with
     | some q => decide (0 < q)
     | none => false)

/-- Validation predicate of the 24h-change field of
parseAndSetMarketData. -/
def acceptsChange (s : String) : Bool :=
  s ≠ "" && s ≠ "null" && (parseDecimal s).isSome

theorem applyPrice_skip (token : Token) (s : String) (h : acceptsPositive s = false) :
    applyPrice token s = token := by
  unfold applyPrice
  split
  · rename_i hcond
    cases hp : parseDecimal s with
    | none => rfl
    | some q =>
      have hq : ¬ 0 < q := by
        unfold acceptsPositive at h
        rw [hcond, hp] at h
        simpa using h
      simp [hq]
  · rfl

theorem applyVolume_skip (token : Token) (s : String) (h : acceptsPositive s = false) :
    applyVolume token s = token := by
  unfold applyVolume
  split
  · rename_i hcond
    cases hp : parseDecimal s with
    | none => rfl
    | some q =>
      have hq : ¬ 0 < q := by
        unfold acceptsPositive at h
        rw [hcond, hp] at h
        simpa using h
      simp [hq]
  · rfl

theorem applyMarketCap_skip (token : Token) (s : String) (h : acceptsPositive s = false) :
    applyMarketCap token s = token := by
  unfold applyMarketCap
  split
  · rename_i hcond
    cases hp : parseDecimal s with
    | none => rfl
    | some q =>
      have hq : ¬ 0 < q := by
        unfold acceptsPositive at h
        rw [hcond, hp] at h
        simpa using h
      simp [hq]
  · rfl

theorem applyChange_skip (token : Token) (s : String) (h : acceptsChange s = false) :
    applyChange token s = token := by
  unfold applyChange
  split
  · rename_i hcond
    cases hp : parseDecimal s with
    | none => rfl
    | some q =>
      exfalso
      unfold acceptsChange at h
      rw [hcond, hp] at h
      simp at h
  · rfl

theorem parseAndSetMarketData_all_invalid (token : Token) (a b c d : String)
    (ha : acceptsPositive a = false) (hb : acceptsPositive b = false)
    (hc : acceptsPositive c = false) (hd : acceptsChange d = false) :
    parseAndSetMarketData token a b c d = { token with lastUpdated := true } := by
  unfold parseAndSetMarketData
  rw [applyPrice_skip token a ha, applyVolume_skip token b hb,
    applyMarketCap_skip token c hc, applyChange_skip token d hd]

theorem enhanceFromDexScreener_of_select (token : Token) (pairs : List DexPair)
    (s : DexPair) (hs : selectBestPair token.address pairs = some s) :
    enhanceFromDexScreener (some pairs) token =
      (true, { parseAndSetMarketData token s.priceUsd s.volumeH24 s.marketCap
          s.priceChangeH24 with source := "dexscreener_enhanced" }) := by
  have hne : pairs.isEmpty = false := by
    cases pairs with
    | nil => simp [selectBestPair, selectLoop] at hs
    | cons p rest => rfl
  unfold enhanceFromDexScreener
  simp [hne, hs]

theorem enhanceFromDexScreener_false_iff (token : Token) (pairs : List DexPair) :
    (enhanceFromDexScreener (some pairs) token).1 = false ↔
      selectBestPair token.address pairs = none := by
  cases hsel : selectBestPair token.address pairs with
  | none =>
    cases pairs with
    | nil => simp [enhanceFromDexScreener]
    | cons p rest =>
      unfold enhanceFromDexScreener
      simp [hsel]
  | some s =>
    rw [enhanceFromDexScreener_of_select token pairs s hsel]
    simp

/-- C6 (amended): when every matching pair carries a non-empty,
decimal-parseable liquidity field, the selected pair is the earliest
matching pair attaining the maximal parsed USD liquidity (every earlier
matching pair is strictly smaller, every later one no larger), and the
enrichment step reports failure exactly when no pair's base token matches
the token address; pairs whose liquidity field is empty or unparseable
are outside this guarantee. -/
theorem enhanceFromDexScreener_selection (token : Token) (pairs : List DexPair)
    (hall : ∀ p ∈ pairs, eqFold p.baseTokenAddress token.address = true →
      p.liquidityUsd ≠ "" ∧ (parseDecimal p.liquidityUsd).isSome = true) :
    (∀ s, selectBestPair token.address pairs = some s →
      ∃ pre post, matchingPairs token.address pairs = pre ++ s :: post
        ∧ (∀ q ∈ pre, liqOf q < liqOf s)
        ∧ (∀ q ∈ post, liqOf q ≤ liqOf s))
    ∧ (selectBestPair token.address pairs = none ↔
        matchingPairs token.address pairs = [])
    ∧ ((enhanceFromDexScreener (some pairs) token).1 = false ↔
        selectBestPair token.address pairs = none) := by
  refine ⟨selectBestPair_split token.address pairs hall, ?_,
    enhanceFromDexScreener_false_iff token pairs⟩
  constructor
  · intro h
    have hchar := (selectLoop_none_iff token.address pairs).mp h
    apply List.filter_eq_nil_iff.mpr
    intro p hp
    simp only [Bool.not_eq_true]
    by_contra hmatch
    have hm : eqFold p.baseTokenAddress token.address = true := by
      simpa using hmatch
    have h1 := (hchar p hp hm).2
    have h2 := (hall p hp hm).2
    rw [h1] at h2
    simp at h2
  · intro h
    apply (selectLoop_none_iff token.address pairs).mpr
    intro p hp hm
    exfalso
    have : p ∈ matchingPairs token.address pairs := by
      apply List.mem_filter.mpr
      exact ⟨hp, hm⟩
    rw [h] at this
    simp at this

/-- Concrete matching pair with an unparseable liquidity field, and the
token it matches, for the C6 counterexample. -/
def cexPairC6 : DexPair :=
  { chainId := "ethereum", baseTokenAddress := "0xAA", baseTokenSymbol := "AAA",
    quoteTokenSymbol := "WETH", priceUsd := "1.0", volumeH24 := "5",
    liquidityUsd := "abc", marketCap := "10", priceChangeH24 := "1" }

def cexTokenC6 : Token :=
  { address := "0xaa", symbol := "AAA", name := "Aaa Coin", chainID := 1,
    decimals := 18, source := "onchain", verified := true, popular := false }

/-- C6 counterexample: a pair whose base token matches the token address
case-insensitively exists, yet the enrichment step reports failure,
because the matching pair's non-empty liquidity field does not parse; so
matching alone does not make the step succeed, contrary to the claim that
failure is reported only when no pair's base token matches. -/
theorem enhanceFromDexScreener_match_yet_failure :
    eqFold cexPairC6.baseTokenAddress cexTokenC6.address = true
    ∧ (enhanceFromDexScreener (some [cexPairC6]) cexTokenC6).1 = false := by
  constructor
  · decide
  · decide

/-- Concrete all-parseable pairs for the C6 witness: two matching pairs,
the later one with the larger liquidity. -/
def selPairLow : DexPair :=
  { chainId := "bsc", baseTokenAddress := "0xBB", baseTokenSymbol := "BBB",
    quoteTokenSymbol := "WBNB", priceUsd := "1.0", volumeH24 := "5",
    liquidityUsd := "100", marketCap := "10", priceChangeH24 := "1" }

def selPairHigh : DexPair :=
  { chainId := "bsc", baseTokenAddress := "0xbb", baseTokenSymbol := "BBB",
    quoteTokenSymbol := "USDT", priceUsd := "1.1", volumeH24 := "6",
    liquidityUsd := "250.5", marketCap := "11", priceChangeH24 := "-2" }

def selTokenC6 : Token :=
  { address := "0xBb", symbol := "BBB", name := "Bbb Coin", chainID := 56,
    decimals := 18, source := "onchain", verified := true, popular := false }

/-- C6 witness: the selection theorem applied to a concrete response where
the second matching pair has the larger liquidity. -/
theorem enhanceFromDexScreener_selection_witness :
    ∃ pre post,
      matchingPairs selTokenC6.address [selPairLow, selPairHigh] =
        pre ++ selPairHigh :: post
      ∧ (∀ q ∈ pre, liqOf q < liqOf selPairHigh)
      ∧ (∀ q ∈ post, liqOf q ≤ liqOf selPairHigh) :=
  (enhanceFromDexScreener_selection selTokenC6 [selPairLow, selPairHigh]
    (by decide)).1 selPairHigh (by decide)

theorem enhanceFromDexScreener_success_tags (resp : Option (List DexPair))
    (token : Token) (h : (enhanceFromDexScreener resp token).1 = true) :
    (enhanceFromDexScreener resp token).2.source = "dexscreener_enhanced"
    ∧ (enhanceFromDexScreener resp token).2.lastUpdated = true := by
  cases resp with
  | none => simp [enhanceFromDexScreener] at h
  | some pairs =>
    cases hsel : selectBestPair token.address pairs with
    | none =>
      rw [(enhanceFromDexScreener_false_iff token pairs).mpr hsel] at h
      cases h
    | some s =>
      rw [enhanceFromDexScreener_of_select token pairs s hsel]
      exact ⟨rfl, rfl⟩

/-- C4: enrichment consults the DEX-pair provider first; when it succeeds
the result is its enhancement, with the dexscreener_enhanced tag,
whatever the pool provider would have answered; the pool provider is used
exactly when the DEX-pair provider fails; and when both fail the token is
still produced, tagged onchain_only, with every market-data field exactly
as it came in (in particular still unset). -/
theorem enhanceTokenWithMarketData_waterfall (env : EnhanceEnv) (token : Token) :
    ((enhanceFromDexScreener env.dexResp token).1 = true →
      ∀ g, enhanceTokenWithMarketData ⟨env.dexResp, g⟩ token
          = (enhanceFromDexScreener env.dexResp token).2
        ∧ (enhanceTokenWithMarketData ⟨env.dexResp, g⟩ token).source
            = "dexscreener_enhanced")
    ∧ ((enhanceFromDexScreener env.dexResp token).1 = false →
        (enhanceFromGeckoTerminal env.geckoResp token).1 = true →
        enhanceTokenWithMarketData env token
          = (enhanceFromGeckoTerminal env.geckoResp token).2)
    ∧ ((enhanceFromDexScreener env.dexResp token).1 = false →
        (enhanceFromGeckoTerminal env.geckoResp token).1 = false →
        enhanceTokenWithMarketData env token = { token with source := "onchain_only" }
        ∧ (enhanceTokenWithMarketData env token).priceUSD = token.priceUSD
        ∧ (enhanceTokenWithMarketData env token).volume24h = token.volume24h
        ∧ (enhanceTokenWithMarketData env token).marketCap = token.marketCap
        ∧ (enhanceTokenWithMarketData env token).change24h = token.change24h) := by
  refine ⟨?_, ?_, ?_⟩
  · intro hdex g
    have hres : enhanceTokenWithMarketData ⟨env.dexResp, g⟩ token
        = (enhanceFromDexScreener env.dexResp token).2 := by
      unfold enhanceTokenWithMarketData
      simp only [hdex, if_true]
    refine ⟨hres, ?_⟩
    rw [hres]
    exact (enhanceFromDexScreener_success_tags env.dexResp token hdex).1
  · intro hdex hgecko
    unfold enhanceTokenWithMarketData
    simp only [hdex, hgecko, if_true, Bool.false_eq_true, if_false]
  · intro hdex hgecko
    have hres : enhanceTokenWithMarketData env token
        = { token with source := "onchain_only" } := by
      unfold enhanceTokenWithMarketData
      simp only [hdex, hgecko, Bool.false_eq_true, if_false]
    rw [hres]
    exact ⟨rfl, rfl, rfl, rfl, rfl⟩

/-- Concrete DexScreener and GeckoTerminal responses that would both
supply valid market data, for the C4 witness. -/
def dexPairC4 : DexPair :=
  { chainId := "ethereum", baseTokenAddress := "0xCc", baseTokenSymbol := "CCC",
    quoteTokenSymbol := "WETH", priceUsd := "1.5", volumeH24 := "1000",
    liquidityUsd := "50", marketCap := "99", priceChangeH24 := "-1.25" }

def geckoAttrsC4 : GeckoTokenAttrs :=
  { name := "Ccc Coin", symbol := "CCC", address := "0xcc", imageUrl := "",
    priceUsd := "1.4", fdvUsd := "98", marketCapUsd := "97",
    volumeUsdH24 := "900" }

def envBothC4 : EnhanceEnv :=
  { dexResp := some [dexPairC4], geckoResp := some geckoAttrsC4 }

def tokenC4 : Token :=
  { address := "0xcc", symbol := "CCC", name := "Ccc Coin", chainID := 1,
    decimals := 18, source := "onchain", verified := true, popular := false }

/-- C4 witness: with both providers holding valid data, the waterfall
theorem yields the DexScreener enhancement and its provenance tag. -/
theorem enhanceTokenWithMarketData_waterfall_witness :
    enhanceTokenWithMarketData envBothC4 tokenC4
      = (enhanceFromDexScreener envBothC4.dexResp tokenC4).2
    ∧ (enhanceTokenWithMarketData envBothC4 tokenC4).source
        = "dexscreener_enhanced" :=
  (enhanceTokenWithMarketData_waterfall envBothC4 tokenC4).1 (by decide)
    envBothC4.geckoResp

/-- C10 (amended): if the DEX-pair response contains at least one matching
pair whose liquidity field is empty or decimal-parseable, enrichment is
reported successful, the provenance tag is overwritten to
dexscreener_enhanced and lastUpdated is stamped — even when every numeric
field of the selected pair fails validation, in which case no market-data
field is set; so the enhanced tag does not imply any market data is
present.  (A matching pair with a non-empty unparseable liquidity field
is not selectable, which is the one correction to the claim.) -/
theorem enhanceFromDexScreener_tag_without_data (token : Token)
    (pairs : List DexPair) (p : DexPair) (hp : p ∈ pairs)
    (hm : eqFold p.baseTokenAddress token.address = true)
    (hsel : p.liquidityUsd = "" ∨ (parseDecimal p.liquidityUsd).isSome = true) :
    (enhanceFromDexScreener (some pairs) token).1 = true
    ∧ (enhanceFromDexScreener (some pairs) token).2.source = "dexscreener_enhanced"
    ∧ (enhanceFromDexScreener (some pairs) token).2.lastUpdated = true
    ∧ ∀ s, selectBestPair token.address pairs = some s →
        acceptsPositive s.priceUsd = false → acceptsPositive s.volumeH24 = false →
        acceptsPositive s.marketCap = false → acceptsChange s.priceChangeH24 = false →
        (enhanceFromDexScreener (some pairs) token).2.priceUSD = token.priceUSD
        ∧ (enhanceFromDexScreener (some pairs) token).2.volume24h = token.volume24h
        ∧ (enhanceFromDexScreener (some pairs) token).2.marketCap = token.marketCap
        ∧ (enhanceFromDexScreener (some pairs) token).2.change24h = token.change24h := by
  cases hsel0 : selectBestPair token.address pairs with
  | none =>
    exfalso
    have hchar := (selectLoop_none_iff token.address pairs).mp hsel0
    obtain ⟨hne, hnoparse⟩ := hchar p hp hm
    rcases hsel with h | h
    · exact hne h
    · rw [hnoparse] at h
      simp at h
  | some s0 =>
    have hsuccess : (enhanceFromDexScreener (some pairs) token).1 = true := by
      rw [enhanceFromDexScreener_of_select token pairs s0 hsel0]
    refine ⟨hsuccess, (enhanceFromDexScreener_success_tags _ _ hsuccess).1,
      (enhanceFromDexScreener_success_tags _ _ hsuccess).2, ?_⟩
    intro s hs ha hb hc hd
    have hss : s0 = s := by injection hs
    subst hss
    rw [enhanceFromDexScreener_of_select token pairs s0 hsel0]
    rw [parseAndSetMarketData_all_invalid token s0.priceUsd s0.volumeH24 s0.marketCap
      s0.priceChangeH24 ha hb hc hd]
    exact ⟨rfl, rfl, rfl, rfl⟩

/-- Concrete matching pair with a non-empty unparseable liquidity field,
for the C10 counterexample. -/
def cexPairC10 : DexPair :=
  { chainId := "bsc", baseTokenAddress := "0xDD", baseTokenSymbol := "DDD",
    quoteTokenSymbol := "USDT", priceUsd := "2", volumeH24 := "3",
    liquidityUsd := "n/a", marketCap := "4", priceChangeH24 := "5" }

def cexTokenC10 : Token :=
  { address := "0xdd", symbol := "DDD", name := "Ddd Coin", chainID := 56,
    decimals := 18, source := "onchain", verified := true, popular := false }

/-- C10 counterexample: the provider returns a pair whose base token
matches the token, yet enrichment reports failure, because the pair's
non-empty liquidity field does not parse; so a matching pair alone does
not make enrichment successful, contrary to the claim. -/
theorem enhanceFromDexScreener_match_without_success :
    eqFold cexPairC10.baseTokenAddress cexTokenC10.address = true
    ∧ (enhanceFromDexScreener (some [cexPairC10]) cexTokenC10).1 = false := by
  constructor
  · decide
  · decide

/-- Concrete selectable pair with every numeric field failing validation,
for the C10 witness. -/
def pairAllInvalid : DexPair :=
  { chainId := "ethereum", baseTokenAddress := "0xEE", baseTokenSymbol := "EEE",
    quoteTokenSymbol := "WETH", priceUsd := "null", volumeH24 := "0",
    liquidityUsd := "120", marketCap := "abc", priceChangeH24 := "" }

def tokenC10 : Token :=
  { address := "0xee", symbol := "EEE", name := "Eee Coin", chainID := 1,
    decimals := 18, source := "onchain", verified := true, popular := false }

/-- C10 witness: the amended theorem applied to a concrete selectable pair
whose four numeric fields all fail validation — enrichment succeeds, tags
are stamped, and the price field remains unset. -/
theorem enhanceFromDexScreener_tag_without_data_witness :
    (enhanceFromDexScreener (some [pairAllInvalid]) tokenC10).1 = true
    ∧ (enhanceFromDexScreener (some [pairAllInvalid]) tokenC10).2.source
        = "dexscreener_enhanced"
    ∧ (enhanceFromDexScreener (some [pairAllInvalid]) tokenC10).2.lastUpdated = true
    ∧ (enhanceFromDexScreener (some [pairAllInvalid]) tokenC10).2.priceUSD
        = tokenC10.priceUSD :=
  have h := enhanceFromDexScreener_tag_without_data tokenC10 [pairAllInvalid]
    pairAllInvalid (by decide) (by decide) (Or.inr (by decide))
  ⟨h.1, h.2.1, h.2.2.1,
    (h.2.2.2 pairAllInvalid (by decide) (by decide) (by decide) (by decide)
      (by decide)).1⟩

/-- Popular-token metadata read by the address search path.  Modelled
from the spec: the chain-scoped popular-token tables live in the
configuration package, outside the sampled file; only the logo and tag
fields are read here. -/
structure PopularMeta where
  logoURI : String
  tags : List String
deriving DecidableEq, Repr

/-- One pool of the GeckoTerminal search response (the fields the code
reads). -/
structure GeckoPool where
  networkID : String
  baseAddress : String
  baseSymbol : String
  baseName : String
  quoteAddress : String
  quoteSymbol : String
  quoteName : String
deriving DecidableEq, Repr

/-- Base or quote leg of a DexScreener search-response pair
(DexScreenerToken; its own chainId field is unused by the code). -/
structure DexScreenerToken where
  address : String
  name : String
  symbol : String
deriving DecidableEq, Repr

structure DexSearchPair where
  chainId : String
  baseToken : DexScreenerToken
  quoteToken : DexScreenerToken
deriving DecidableEq, Repr

structure BinanceTicker where
  symbol : String
  price : String
deriving DecidableEq, Repr

/-- Environment of one SearchTokensExternal run: the active-chain ids (in
a fixed enumeration order standing for the unspecified Go map order), the
RPC and popular-token configuration (Modelled from the spec: the config
package is not among the sampled sources; GetActiveChains filters by
environment, GetPopularTokens maps upper-cased symbols to addresses,
IsStablecoin recognizes stablecoin symbols), and the decoded provider and
RPC responses for this query. -/
structure ExternalEnv where
  activeChainIDs : List Nat
  rpcURL : Nat → String
  popularTokens : Nat → List (String × String)
  popularMeta : Nat → String → Option PopularMeta
  isStablecoin : String → Bool
  bscActive : Bool
  geckoResp : Option (List GeckoPool)
  dexSearchResp : Option (List DexSearchPair)
  binanceResp : Option (List BinanceTicker)
  callEnv : Nat → String → ContractCallEnv

/-- Models mapGeckoTerminalNetworkToChainID (0 is the missing-key zero
value). -/
def mapGeckoTerminalNetworkToChainID (networkID : String) : Nat :=
  if networkID = "eth" then 1
  else if networkID = "bsc" then 56
  else if networkID = "base" then 8453
  else if networkID = "base-sepolia" then 84532
  else if networkID = "bsc-testnet" then 97
  else 0

/-- Models mapDexScreenerChainToID (0 is the missing-key zero value). -/
def mapDexScreenerChainToID (chain : String) : Nat :=
  if chain = "ethereum" then 1
  else if chain = "bsc" then 56
  else if chain = "polygon" then 137
  else if chain = "base" then 8453
  else if chain = "arbitrum" then 42161
  else if chain = "optimism" then 10
  else 0

/-- Token built from the base leg of a GeckoTerminal pool. -/
def geckoBaseToken (pool : GeckoPool) (chainID : Nat) : Token :=
  { address := toLowerStr pool.baseAddress, symbol := toUpperStr pool.baseSymbol,
    name := pool.baseName, chainID := chainID, decimals := 18,
    source := "geckoterminal", verified := true, popular := false }

/-- Token built from the quote leg of a GeckoTerminal pool. -/
def geckoQuoteToken (pool : GeckoPool) (chainID : Nat) : Token :=
  { address := toLowerStr pool.quoteAddress, symbol := toUpperStr pool.quoteSymbol,
    name := pool.quoteName, chainID := chainID, decimals := 18,
    source := "geckoterminal", verified := true, popular := false }

/-- Loop of searchGeckoTerminal over the returned pools, threading the
seen-key set; the base leg requires a non-empty address, the quote leg
additionally a non-stablecoin symbol. -/
def geckoLoop (env : ExternalEnv) : List GeckoPool → List (Nat × String) → List Token
  | [], _ => []
  | pool :: rest, seen =>
    let chainID := mapGeckoTerminalNetworkToChainID pool.networkID
    if chainID = 0 then geckoLoop env rest seen
    else if chainID ∉ env.activeChainIDs then geckoLoop env rest seen
    else
      let baseKey : Nat × String := (chainID, toLowerStr pool.baseAddress)
      let quoteKey : Nat × String := (chainID, toLowerStr pool.quoteAddress)
      if !seen.contains baseKey && pool.baseAddress != "" then
        let seen1 := baseKey :: seen
        if !seen1.contains quoteKey && pool.quoteAddress != "" &&
            !env.isStablecoin pool.quoteSymbol then
          geckoBaseToken pool chainID :: geckoQuoteToken pool chainID ::
            geckoLoop env rest (quoteKey :: seen1)
        else geckoBaseToken pool chainID :: geckoLoop env rest seen1
      else
        if !seen.contains quoteKey && pool.quoteAddress != "" &&
            !env.isStablecoin pool.quoteSymbol then
          geckoQuoteToken pool chainID :: geckoLoop env rest (quoteKey :: seen)
        else geckoLoop env rest seen

/-- Models searchGeckoTerminal (the query only forms the HTTP request,
which the response environment already reflects). -/
def searchGeckoTerminal (env : ExternalEnv) (_query : String) : List Token :=
  match env.geckoResp with
  | none => []
  | some pools => geckoLoop env pools []

/-- Token built from the base leg of a DexScreener search pair. -/
def dexBaseToken (pair : DexSearchPair) (chainID : Nat) : Token :=
  { address := toLowerStr pair.baseToken.address,
    symbol := toUpperStr pair.baseToken.symbol, name := pair.baseToken.name,
    chainID := chainID, decimals := 18, source := "dexscreener",
    verified := true, popular := false }

/-- Token built from the quote leg of a DexScreener search pair. -/
def dexQuoteToken (pair : DexSearchPair) (chainID : Nat) : Token :=
  { address := toLowerStr pair.quoteToken.address,
    symbol := toUpperStr pair.quoteToken.symbol, name := pair.quoteToken.name,
    chainID := chainID, decimals := 18, source := "dexscreener",
    verified := true, popular := false }

/-- Loop of searchDexScreener over the returned pairs; unlike the
GeckoTerminal loop the base leg has no non-empty-address guard, and the
quote leg only the stablecoin guard. -/
def dexLoop (env : ExternalEnv) : List DexSearchPair → List (Nat × String) → List Token
  | [], _ => []
  | pair :: rest, seen =>
    let chainID := mapDexScreenerChainToID pair.chainId
    if chainID = 0 then dexLoop env rest seen
    else if chainID ∉ env.activeChainIDs then dexLoop env rest seen
    else
      let baseKey : Nat × String := (chainID, toLowerStr pair.baseToken.address)
      let quoteKey : Nat × String := (chainID, toLowerStr pair.quoteToken.address)
      if !seen.contains baseKey then
        let seen1 := baseKey :: seen
        if !seen1.contains quoteKey && !env.isStablecoin pair.quoteToken.symbol then
          dexBaseToken pair chainID :: dexQuoteToken pair chainID ::
            dexLoop env rest (quoteKey :: seen1)
        else dexBaseToken pair chainID :: dexLoop env rest seen1
      else
        if !seen.contains quoteKey && !env.isStablecoin pair.quoteToken.symbol then
          dexQuoteToken pair chainID :: dexLoop env rest (quoteKey :: seen)
        else dexLoop env rest seen

/-- Models searchDexScreener. -/
def searchDexScreener (env : ExternalEnv) (_query : String) : List Token :=
  match env.dexSearchResp with
  | none => []
  | some pairs => dexLoop env pairs []

def strStartsWith : List Char → List Char → Bool
  | _, [] => true
  | [], _ :: _ => false
  | c :: cs, d :: ds => c == d && strStartsWith cs ds

def strContainsAux : List Char → List Char → Bool
  | [], sub => sub.isEmpty
  | c :: cs, sub => strStartsWith (c :: cs) sub || strContainsAux cs sub

/-- Models strings.Contains: the second string occurs inside the first. -/
def strContains (s sub : String) : Bool := strContainsAux s.data sub.data

/-- Models strings.HasSuffix. -/
def strEndsWith (s t : String) : Bool := t.data.isSuffixOf s.data

/-- Models strings.TrimSuffix. -/
def strTrimSuffix (s t : String) : String :=
  if strEndsWith s t then ⟨s.data.take (s.data.length - t.data.length)⟩ else s

/-- Base-asset extraction of searchBinance: strip a USDT, else a BNB,
quote suffix; other tickers are skipped. -/
def binanceBaseAsset (sym : String) : Option String :=
  if strEndsWith sym ("USDT") then some (strTrimSuffix sym ("USDT"))
  else if strEndsWith sym ("BNB") then some (strTrimSuffix sym ("BNB"))
  else none

/-- Token built by searchBinance from a matched base asset and its
popular-table address (the symbol is the raw base asset; Binance tickers
carry no full token name). -/
def binanceTokenOf (baseAsset address : String) : Token :=
  { address := toLowerStr address, symbol := baseAsset, name := baseAsset,
    chainID := 56, decimals := 18, source := "binance", verified := true,
    popular := true }

/-- Loop of searchBinance over the full ticker list, threading the
seen-symbol set; a ticker contributes when its base asset contains the
upper-cased query and the BSC popular table maps it to an address. -/
def binanceLoop (env : ExternalEnv) (queryUpper : String) :
    List BinanceTicker → List String → List Token
  | [], _ => []
  | ticker :: rest, seen =>
    match binanceBaseAsset ticker.symbol with
    | none => binanceLoop env queryUpper rest seen
    | some baseAsset =>
      if strContains baseAsset queryUpper && !seen.contains baseAsset then
        match (env.popularTokens 56).lookup baseAsset with
        | some address =>
          binanceTokenOf baseAsset address ::
            binanceLoop env queryUpper rest (baseAsset :: seen)
        | none => binanceLoop env queryUpper rest seen
      else binanceLoop env queryUpper rest seen

/-- Models searchBinance (BSC is the one chain the exchange path serves). -/
def searchBinance (env : ExternalEnv) (query : String) : List Token :=
  match env.binanceResp with
  | none => []
  | some tickers =>
    if env.bscActive then binanceLoop env (toUpperStr query) tickers []
    else []

/-- Models quickTokenCheck: chain configured with a non-empty RPC URL,
dial succeeded and the name() probe decodes. -/
def quickTokenCheck (chainListed : Bool) (rpcURL : String) (c : ContractCallEnv) :
    Bool :=
  chainListed && rpcURL != "" && c.dialOK && (callStringMethod c.nameResult).isSome

/-- verifyTokenOnchain wired to the search environment (a chain missing
from the configuration is modelled by an empty RPC URL). -/
def verifyTokenOnchainE (env : ExternalEnv) (address : String) (chainID : Nat) :
    Option Token :=
  verifyTokenOnchain (env.rpcURL chainID != "") (env.activeChainIDs.contains chainID)
    (env.callEnv chainID address) address chainID

/-- Models searchByAddressOptimized: per active chain, quick check then
full verification, with popular-token metadata enhancement; the
channel-collection order is modelled by the chain enumeration order. -/
def searchByAddressOptimized (env : ExternalEnv) (address : String) : List Token :=
  env.activeChainIDs.filterMap (fun cID =>
    if quickTokenCheck (env.activeChainIDs.contains cID) (env.rpcURL cID)
        (env.callEnv cID address) then
      match verifyTokenOnchainE env address cID with
      | some t =>
        match env.popularMeta cID address with
        | some m => some { t with popular := true, logoURI := m.logoURI, tags := m.tags }
        | none => some t
      | none => none
    else none)

/-- Models searchOnchain: address inputs re-run the optimized address
path; any other input consults each active chain's popular-symbol table
and verifies the mapped address, marking hits popular. -/
def searchOnchain (env : ExternalEnv) (query : String) : List Token :=
  if DetectInputType query = "address" then searchByAddressOptimized env query
  else
    env.activeChainIDs.filterMap (fun cID =>
      match (env.popularTokens cID).lookup (toUpperStr query) with
      | some address =>
        match verifyTokenOnchainE env address cID with
        | some t => some { t with popular := true }
        | none => none
      | none => none)

/-- Cache entry of the search cache.  Modelled from the spec: the
CacheStore (get/set with TTL) is not among the sampled sources; within
the TTL window a set entry is returned by get.  The TTL is recorded in
seconds. -/
structure CacheEntry where
  key : String
  value : List Token
  ttlSeconds : Nat
deriving DecidableEq

abbrev Cache := List CacheEntry

def cacheGet (c : Cache) (k : String) : Option (List Token) :=
  (c.find? (fun e => e.key == k)).map CacheEntry.value

def cacheSet (c : Cache) (k : String) (v : List Token) (ttl : Nat) : Cache :=
  ⟨k, v, ttl⟩ :: c

/-- Cache key of SearchTokensExternal: classification plus lower-cased
query. -/
def searchCacheKey (query : String) : String :=
  "external:search:" ++ DetectInputType query ++ ":" ++ toLowerStr query

/-- Body of SearchTokensExternal past the cache check: the address
strategy or the three concurrent providers (collected in launch order; the
final set is order-independent), always followed by the on-chain search,
deduplication, and the conditional 5-minute cache write. -/
def searchTokensFull (env : ExternalEnv) (cache : Cache) (query key : String) :
    List Token × Cache × Bool :=
  let inputType := DetectInputType query
  let providerTokens :=
    if inputType = "address" then searchByAddressOptimized env query
    else searchGeckoTerminal env query ++ searchDexScreener env query ++
      searchBinance env query
  let allTokens := providerTokens ++ searchOnchain env query
  let finalTokens := deduplicateTokens allTokens
  let cache1 :=
    if finalTokens.length > 0 then cacheSet cache key finalTokens 300 else cache
  (finalTokens, cache1, true)

/-- Models SearchTokensExternal.  The Go function always returns a nil
error, so the error channel is omitted; the Bool records whether provider
or on-chain work was performed (false exactly on a cache hit, which
requires a non-empty cached list). -/
def SearchTokensExternal (env : ExternalEnv) (cache : Cache) (query : String) :
    List Token × Cache × Bool :=
  let key := searchCacheKey query
  match cacheGet cache key with
  | some cached =>
    if cached.length > 0 then (cached, cache, false)
    else searchTokensFull env cache query key
  | none => searchTokensFull env cache query key

theorem geckoLoop_mem (env : ExternalEnv) :
    ∀ (pools : List GeckoPool) (seen : List (Nat × String)) (t : Token),
      t ∈ geckoLoop env pools seen →
      noUpperStr t.address = true ∧ noLowerStr t.symbol = true ∧
        t.decimals = 18 ∧ t.source = "geckoterminal" := by
  intro pools
  induction pools with
  | nil =>
    intro seen t ht
    simp [geckoLoop] at ht
  | cons pool rest ih =>
    intro seen t ht
    have hbase : ∀ cID : Nat,
        noUpperStr (geckoBaseToken pool cID).address = true
        ∧ noLowerStr (geckoBaseToken pool cID).symbol = true
        ∧ (geckoBaseToken pool cID).decimals = 18
        ∧ (geckoBaseToken pool cID).source = "geckoterminal" :=
      fun cID => ⟨noUpperStr_toLowerStr _, noLowerStr_toUpperStr _, rfl, rfl⟩
    have hquote : ∀ cID : Nat,
        noUpperStr (geckoQuoteToken pool cID).address = true
        ∧ noLowerStr (geckoQuoteToken pool cID).symbol = true
        ∧ (geckoQuoteToken pool cID).decimals = 18
        ∧ (geckoQuoteToken pool cID).source = "geckoterminal" :=
      fun cID => ⟨noUpperStr_toLowerStr _, noLowerStr_toUpperStr _, rfl, rfl⟩
    simp only [geckoLoop] at ht
    split at ht
    · exact ih _ t ht
    · split at ht
      · exact ih _ t ht
      · split at ht
        · split at ht
          · rcases List.mem_cons.mp ht with h | h
            · subst h
              exact hbase _
            · rcases List.mem_cons.mp h with h2 | h2
              · subst h2
                exact hquote _
              · exact ih _ t h2
          · rcases List.mem_cons.mp ht with h | h
            · subst h
              exact hbase _
            · exact ih _ t h
        · split at ht
          · rcases List.mem_cons.mp ht with h | h
            · subst h
              exact hquote _
            · exact ih _ t h
          · exact ih _ t ht

theorem dexLoop_mem (env : ExternalEnv) :
    ∀ (pairs : List DexSearchPair) (seen : List (Nat × String)) (t : Token),
      t ∈ dexLoop env pairs seen →
      noUpperStr t.address = true ∧ noLowerStr t.symbol = true ∧
        t.decimals = 18 ∧ t.source = "dexscreener" := by
  intro pairs
  induction pairs with
  | nil =>
    intro seen t ht
    simp [dexLoop] at ht
  | cons pair rest ih =>
    intro seen t ht
    have hbase : ∀ cID : Nat,
        noUpperStr (dexBaseToken pair cID).address = true
        ∧ noLowerStr (dexBaseToken pair cID).symbol = true
        ∧ (dexBaseToken pair cID).decimals = 18
        ∧ (dexBaseToken pair cID).source = "dexscreener" :=
      fun cID => ⟨noUpperStr_toLowerStr _, noLowerStr_toUpperStr _, rfl, rfl⟩
    have hquote : ∀ cID : Nat,
        noUpperStr (dexQuoteToken pair cID).address = true
        ∧ noLowerStr (dexQuoteToken pair cID).symbol = true
        ∧ (dexQuoteToken pair cID).decimals = 18
        ∧ (dexQuoteToken pair cID).source = "dexscreener" :=
      fun cID => ⟨noUpperStr_toLowerStr _, noLowerStr_toUpperStr _, rfl, rfl⟩
    simp only [dexLoop] at ht
    split at ht
    · exact ih _ t ht
    · split at ht
      · exact ih _ t ht
      · split at ht
        · split at ht
          · rcases List.mem_cons.mp ht with h | h
            · subst h
              exact hbase _
            · rcases List.mem_cons.mp h with h2 | h2
              · subst h2
                exact hquote _
              · exact ih _ t h2
          · rcases List.mem_cons.mp ht with h | h
            · subst h
              exact hbase _
            · exact ih _ t h
        · split at ht
          · rcases List.mem_cons.mp ht with h | h
            · subst h
              exact hquote _
            · exact ih _ t h
          · exact ih _ t ht

theorem binanceLoop_mem (env : ExternalEnv) (queryUpper : String) :
    ∀ (tickers : List BinanceTicker) (seen : List String) (t : Token),
      t ∈ binanceLoop env queryUpper tickers seen →
      noUpperStr t.address = true ∧ t.decimals = 18 ∧ t.source = "binance" ∧
        ∃ a, (env.popularTokens 56).lookup t.symbol = some a := by
  intro tickers
  induction tickers with
  | nil =>
    intro seen t ht
    simp [binanceLoop] at ht
  | cons ticker rest ih =>
    intro seen t ht
    simp only [binanceLoop] at ht
    split at ht
    · exact ih _ t ht
    · rename_i baseAsset hassets
      split at ht
      · split at ht
        · rename_i address haddr
          rcases List.mem_cons.mp ht with h | h
          · subst h
            exact ⟨noUpperStr_toLowerStr _, rfl, rfl, address, haddr⟩
          · exact ih _ t h
        · exact ih _ t ht
      · exact ih _ t ht

theorem verifyTokenOnchain_shape (rc ca : Bool) (c : ContractCallEnv)
    (addr : String) (cID : Nat) (t : Token)
    (h : verifyTokenOnchain rc ca c addr cID = some t) :
    t.address = toLowerStr addr ∧
      ∃ info : TokenInfo, getTokenInfoFromContract ca c = some info ∧
        t.symbol = toUpperStr info.symbol ∧ t.decimals = info.decimals ∧
        t.source = "onchain" := by
  unfold verifyTokenOnchain at h
  split at h
  · cases h
  · split at h
    · cases h
    · rename_i info heq
      split at h
      · cases h
      · injection h with h1
        subst h1
        exact ⟨rfl, info, heq, rfl, rfl, rfl⟩

theorem lookup_mem_pair (l : List (String × String)) (k v : String)
    (h : l.lookup k = some v) : (k, v) ∈ l := by
  induction l with
  | nil => simp [List.lookup] at h
  | cons p rest ih =>
    cases p with
    | mk k1 v1 =>
      rw [List.lookup] at h
      by_cases hbeq : (k == k1) = true
      · rw [hbeq] at h
        simp only [cond_true, Option.some_inj] at h
        have : k = k1 := eq_of_beq hbeq
        subst this
        subst h
        exact List.mem_cons_self _ _
      · rw [Bool.not_eq_true] at hbeq
        rw [hbeq] at h
        simp only [cond_false] at h
        exact List.mem_cons_of_mem _ (ih h)

/-- C8: every token produced by the pool-provider, DEX-pair-provider,
exchange-ticker and on-chain verification paths has a lower-cased
contract address (no ASCII upper-case letter) and an upper-cased symbol
(no ASCII lower-case letter).  For the exchange path the symbol is a key
of the BSC popular-token table, whose keys are upper-cased ticker symbols
(modelled from the spec, the table living in the configuration package). -/
theorem searchPaths_casing (env : ExternalEnv) (q : String)
    (hpop : ∀ kv ∈ env.popularTokens 56, noLowerStr kv.1 = true) :
    (∀ t ∈ searchGeckoTerminal env q,
      noUpperStr t.address = true ∧ noLowerStr t.symbol = true)
    ∧ (∀ t ∈ searchDexScreener env q,
      noUpperStr t.address = true ∧ noLowerStr t.symbol = true)
    ∧ (∀ t ∈ searchBinance env q,
      noUpperStr t.address = true ∧ noLowerStr t.symbol = true)
    ∧ (∀ (rc ca : Bool) (c : ContractCallEnv) (addr : String) (cID : Nat) (t : Token),
        verifyTokenOnchain rc ca c addr cID = some t →
        noUpperStr t.address = true ∧ noLowerStr t.symbol = true) := by
  refine ⟨?_, ?_, ?_, ?_⟩
  · intro t ht
    cases hresp : env.geckoResp with
    | none =>
      unfold searchGeckoTerminal at ht
      rw [hresp] at ht
      cases ht
    | some pools =>
      unfold searchGeckoTerminal at ht
      rw [hresp] at ht
      obtain ⟨h1, h2, _, _⟩ := geckoLoop_mem env pools [] t ht
      exact ⟨h1, h2⟩
  · intro t ht
    cases hresp : env.dexSearchResp with
    | none =>
      unfold searchDexScreener at ht
      rw [hresp] at ht
      cases ht
    | some pairs =>
      unfold searchDexScreener at ht
      rw [hresp] at ht
      obtain ⟨h1, h2, _, _⟩ := dexLoop_mem env pairs [] t ht
      exact ⟨h1, h2⟩
  · intro t ht
    cases hresp : env.binanceResp with
    | none =>
      unfold searchBinance at ht
      rw [hresp] at ht
      cases ht
    | some tickers =>
      unfold searchBinance at ht
      rw [hresp] at ht
      cases hba : env.bscActive with
      | false =>
        rw [hba] at ht
        simp at ht
      | true =>
        rw [hba] at ht
        simp only [if_true] at ht
        obtain ⟨h1, _, _, a, ha⟩ := binanceLoop_mem env (toUpperStr q) tickers [] t ht
        exact ⟨h1, hpop (t.symbol, a) (lookup_mem_pair _ _ _ ha)⟩
  · intro rc ca c addr cID t h
    obtain ⟨haddr, info, _, hsym, _, _⟩ := verifyTokenOnchain_shape rc ca c addr cID t h
    rw [haddr, hsym]
    exact ⟨noUpperStr_toLowerStr _, noLowerStr_toUpperStr _⟩

/-- Concrete environment for the C8 witness: one Binance ticker whose
base asset is mapped by the BSC popular-token table. -/
def deadCallEnv : ContractCallEnv :=
  { dialOK := false, nameResult := none, symbolResult := none,
    decimalsResult := none }

def envC8 : ExternalEnv :=
  { activeChainIDs := [56], rpcURL := fun _ => "",
    popularTokens := fun c => if c = 56 then [("CAKE", "0xAbC123")] else [],
    popularMeta := fun _ _ => none, isStablecoin := fun _ => false,
    bscActive := true, geckoResp := none, dexSearchResp := none,
    binanceResp := some [{ symbol := "CAKEUSDT", price := "2.5" }],
    callEnv := fun _ _ => deadCallEnv }

/-- C8 witness: the casing theorem applied to the token the exchange path
produces in the concrete environment. -/
theorem searchPaths_casing_witness :
    noUpperStr (binanceTokenOf ("CAKE") ("0xAbC123")).address = true
    ∧ noLowerStr (binanceTokenOf ("CAKE") ("0xAbC123")).symbol = true :=
  (searchPaths_casing envC8 ("cake") (by
    intro kv hkv
    simp only [envC8, if_pos] at hkv
    rw [List.mem_singleton.mp hkv]
    decide)).2.2.1 (binanceTokenOf ("CAKE") ("0xAbC123")) (by decide)

/-- Concrete RPC responses decoding to 6 decimals, for the C9 theorem. -/
def cEnvC9 : ContractCallEnv :=
  { dialOK := true,
    nameResult := some (List.replicate 31 0 ++ [32] ++ List.replicate 31 0 ++
      [6, 84, 101, 116, 104, 101, 114]),
    symbolResult := some (List.replicate 31 0 ++ [32] ++ List.replicate 31 0 ++
      [4, 85, 83, 68, 84]),
    decimalsResult := some (List.replicate 31 0 ++ [6]) }

/-- C9: every token of the three symbol-search provider paths has
decimals hard-coded to 18; the on-chain verification path takes its
decimals from the contract response (shown to yield 6 on a concrete
USDT-like environment), so only that path can produce a value other
than 18. -/
theorem searchPaths_decimals (env : ExternalEnv) (q : String) :
    (∀ t ∈ searchGeckoTerminal env q, t.decimals = 18)
    ∧ (∀ t ∈ searchDexScreener env q, t.decimals = 18)
    ∧ (∀ t ∈ searchBinance env q, t.decimals = 18)
    ∧ (∀ (rc ca : Bool) (c : ContractCallEnv) (addr : String) (cID : Nat) (t : Token),
        verifyTokenOnchain rc ca c addr cID = some t →
        ∃ info : TokenInfo, getTokenInfoFromContract ca c = some info ∧
          t.decimals = info.decimals)
    ∧ (verifyTokenOnchain true true cEnvC9
        ("0xdAC17F958D2ee523a2206206994597C13D831ec7") 1).map Token.decimals
        = some 6 := by
  refine ⟨?_, ?_, ?_, ?_, by decide⟩
  · intro t ht
    cases hresp : env.geckoResp with
    | none =>
      unfold searchGeckoTerminal at ht
      rw [hresp] at ht
      cases ht
    | some pools =>
      unfold searchGeckoTerminal at ht
      rw [hresp] at ht
      exact (geckoLoop_mem env pools [] t ht).2.2.1
  · intro t ht
    cases hresp : env.dexSearchResp with
    | none =>
      unfold searchDexScreener at ht
      rw [hresp] at ht
      cases ht
    | some pairs =>
      unfold searchDexScreener at ht
      rw [hresp] at ht
      exact (dexLoop_mem env pairs [] t ht).2.2.1
  · intro t ht
    cases hresp : env.binanceResp with
    | none =>
      unfold searchBinance at ht
      rw [hresp] at ht
      cases ht
    | some tickers =>
      unfold searchBinance at ht
      rw [hresp] at ht
      cases hba : env.bscActive with
      | false =>
        rw [hba] at ht
        simp at ht
      | true =>
        rw [hba] at ht
        simp only [if_true] at ht
        exact (binanceLoop_mem env (toUpperStr q) tickers [] t ht).2.1
  · intro rc ca c addr cID t h
    obtain ⟨_, info, hinfo, _, hdec, _⟩ := verifyTokenOnchain_shape rc ca c addr cID t h
    exact ⟨info, hinfo, hdec⟩

/-- Concrete environment for the C9 witness: one GeckoTerminal pool on an
active chain. -/
def poolC9 : GeckoPool :=
  { networkID := "bsc", baseAddress := "0xFfF", baseSymbol := "fff",
    baseName := "Fff Coin", quoteAddress := "", quoteSymbol := "",
    quoteName := "" }

def envC9 : ExternalEnv :=
  { activeChainIDs := [56], rpcURL := fun _ => "",
    popularTokens := fun _ => [], popularMeta := fun _ _ => none,
    isStablecoin := fun _ => false, bscActive := false,
    geckoResp := some [poolC9],
    dexSearchResp := none, binanceResp := none,
    callEnv := fun _ _ => deadCallEnv }

/-- C9 witness: the decimals theorem applied to the token the pool
provider produces in the concrete environment. -/
theorem searchPaths_decimals_witness :
    (geckoBaseToken poolC9 56).decimals = 18 :=
  (searchPaths_decimals envC9 ("fff")).1 (geckoBaseToken poolC9 56) (by decide)

/-- Concrete environment for the C5 counterexample: one active chain and
a DEX-pair search response carrying a token on it. -/
def dexTokC5 : DexScreenerToken :=
  { address := "0xAbC", name := "Foo Coin", symbol := "foo" }

def dexPairC5 : DexSearchPair :=
  { chainId := "ethereum", baseToken := dexTokC5, quoteToken := dexTokC5 }

def envC5 : ExternalEnv :=
  { activeChainIDs := [1], rpcURL := fun _ => "",
    popularTokens := fun _ => [], popularMeta := fun _ _ => none,
    isStablecoin := fun _ => false, bscActive := false,
    geckoResp := none, dexSearchResp := some [dexPairC5], binanceResp := none,
    callEnv := fun _ _ => deadCallEnv }

/-- C5 counterexample: a query classified unknown is routed through the
symbol strategy, so the external providers are consulted and their
results returned — here a DexScreener hit makes the result non-empty,
contradicting the claim that unknown queries skip the external and
on-chain strategies and return an empty list. -/
theorem searchTokensExternal_unknown_not_skipped :
    DetectInputType ("hello world!") = "unknown"
    ∧ (SearchTokensExternal envC5 [] ("hello world!")).1 ≠ [] := by
  constructor
  · decide
  · decide

/-- C5 (amended): a query classified unknown is not skipped: on a cache
miss the engine runs the symbol strategy — the three external providers
followed by the on-chain popular-symbol path — and returns their
deduplicated union with no error; the list is empty only when every
source contributes nothing. -/
theorem searchTokensExternal_unknown_symbol_strategy (env : ExternalEnv)
    (cache : Cache) (q : String) (hq : DetectInputType q = "unknown")
    (hmiss : cacheGet cache (searchCacheKey q) = none) :
    (SearchTokensExternal env cache q).1 =
      deduplicateTokens ((searchGeckoTerminal env q ++ searchDexScreener env q ++
        searchBinance env q) ++ searchOnchain env q)
    ∧ (SearchTokensExternal env cache q).2.2 = true := by
  simp only [SearchTokensExternal, hmiss]
  simp only [searchTokensFull, hq]
  rw [if_neg (by decide : ¬ ("unknown" : String) = "address")]
  exact ⟨rfl, trivial⟩

/-- C5 witness: the amended theorem applied in the concrete environment
of the counterexample. -/
theorem searchTokensExternal_unknown_symbol_strategy_witness :
    (SearchTokensExternal envC5 [] ("hello world!")).1 =
      deduplicateTokens ((searchGeckoTerminal envC5 ("hello world!") ++
        searchDexScreener envC5 ("hello world!") ++
        searchBinance envC5 ("hello world!")) ++
        searchOnchain envC5 ("hello world!"))
    ∧ (SearchTokensExternal envC5 [] ("hello world!")).2.2 = true :=
  searchTokensExternal_unknown_symbol_strategy envC5 [] ("hello world!")
    (by decide) (by decide)

theorem cacheGet_set (c : Cache) (k : String) (v : List Token) (ttl : Nat) :
    cacheGet (cacheSet c k v ttl) k = some v := by
  simp [cacheGet, cacheSet, List.find?]


theorem searchTokensFull_shape (env : ExternalEnv) (cache : Cache) (q key : String) :
    ∃ final, searchTokensFull env cache q key =
      (final, if final.length > 0 then cacheSet cache key final 300 else cache, true) :=
  ⟨_, rfl⟩

/-- C7: a search whose result list is non-empty leaves the cache so that
an identical call returns the same list from the cache with no provider
or on-chain work; and whenever work is performed, the final list is
written with the fixed 300-second (5-minute) TTL exactly when it is
non-empty, the cache being untouched otherwise (and also untouched on a
cache hit). -/
theorem searchTokensExternal_cache_idempotent (env : ExternalEnv) (cache : Cache)
    (q : String) (r1 : List Token) (c1 : Cache) (w1 : Bool)
    (h : SearchTokensExternal env cache q = (r1, c1, w1)) :
    (r1 ≠ [] → SearchTokensExternal env c1 q = (r1, c1, false))
    ∧ (w1 = true →
        c1 = if r1 = [] then cache else cacheSet cache (searchCacheKey q) r1 300)
    ∧ (w1 = false → c1 = cache) := by
  have hfull : searchTokensFull env cache q (searchCacheKey q) = (r1, c1, w1) →
      (r1 ≠ [] → SearchTokensExternal env c1 q = (r1, c1, false))
      ∧ (w1 = true →
          c1 = if r1 = [] then cache else cacheSet cache (searchCacheKey q) r1 300)
      ∧ (w1 = false → c1 = cache) := by
    intro hw
    obtain ⟨final, heq⟩ := searchTokensFull_shape env cache q (searchCacheKey q)
    rw [heq] at hw
    injection hw with ha hbc
    injection hbc with hb hc
    subst ha
    subst hb
    subst hc
    refine ⟨fun hr => ?_, fun _ => ?_, fun hw0 => absurd hw0 (by decide)⟩
    · have hlen : final.length > 0 := List.length_pos.mpr hr
      rw [if_pos hlen]
      simp only [SearchTokensExternal, cacheGet_set]
      rw [if_pos hlen]
    · by_cases hr : final = []
      · rw [if_pos hr]
        rw [if_neg (by simp [hr])]
      · rw [if_neg hr, if_pos (List.length_pos.mpr hr)]
  simp only [SearchTokensExternal] at h
  cases hget : cacheGet cache (searchCacheKey q) with
  | none =>
    rw [hget] at h
    exact hfull h
  | some cached =>
    rw [hget] at h
    by_cases hlen : cached.length > 0
    · simp only [if_pos hlen] at h
      injection h with ha hbc
      injection hbc with hb hc
      subst ha
      subst hb
      subst hc
      refine ⟨fun hr => ?_, fun hw0 => absurd hw0 (by decide), fun _ => rfl⟩
      simp only [SearchTokensExternal, hget]
      rw [if_pos hlen]
    · simp only [if_neg hlen] at h
      exact hfull h

/-- Concrete environment for the C7 witness: a DEX-pair search response
producing one token, so the first call caches a non-empty list. -/
def dexTokC7 : DexScreenerToken :=
  { address := "0xDeF", name := "Bar Coin", symbol := "bar" }

def dexPairC7 : DexSearchPair :=
  { chainId := "ethereum", baseToken := dexTokC7, quoteToken := dexTokC7 }

def envC7 : ExternalEnv :=
  { activeChainIDs := [1], rpcURL := fun _ => "",
    popularTokens := fun _ => [], popularMeta := fun _ _ => none,
    isStablecoin := fun _ => false, bscActive := false,
    geckoResp := none, dexSearchResp := some [dexPairC7], binanceResp := none,
    callEnv := fun _ _ => deadCallEnv }

/-- C7 witness: the cache theorem applied to a concrete first call whose
result is non-empty — the second identical call is a cache hit returning
the same list with no work. -/
theorem searchTokensExternal_cache_idempotent_witness :
    SearchTokensExternal envC7 (SearchTokensExternal envC7 [] ("bar")).2.1 ("bar")
      = ((SearchTokensExternal envC7 [] ("bar")).1,
        (SearchTokensExternal envC7 [] ("bar")).2.1, false) :=
  (searchTokensExternal_cache_idempotent envC7 [] ("bar")
    (SearchTokensExternal envC7 [] ("bar")).1
    (SearchTokensExternal envC7 [] ("bar")).2.1
    (SearchTokensExternal envC7 [] ("bar")).2.2 rfl).1 (by decide)
